import Mathlib

/-!
Verification of the validate-normalize-encode-batch-write telemetry pipeline
(`ingest.py`, `bigtable_load.py`) against its natural-language specification.

The embedding is shallow: Python values are modelled by the inductive `JVal`,
Python floats by `PFloat` (IEEE doubles are carried as exact rationals plus the
three non-finite values; no claim below depends on binary rounding), Python
`datetime` objects by `PyDatetime` (whose documented year range 1..9999 is part
of the type), and byte strings by `List ℕ`.  External library calls that the
repository merely invokes (`json.loads`, `dateutil.parser.isoparse`,
`datetime.fromisoformat`, `float(str)`) are parameters of the embedded
functions, so every theorem holds for an arbitrary behaviour of those
libraries unless it instantiates them with an explicit concrete stand-in.
-/

/-- Python float values: finite doubles are modelled as exact rationals,
plus `inf`, `-inf` and `nan`. -/
inductive PFloat where
  | fin (q : ℚ)
  | inf
  | ninf
  | nan
deriving Repr

/-- Python `<` on floats: any comparison involving `nan` is `False`;
the infinities compare in the usual way. -/
def pfLt : PFloat → PFloat → Bool
  | .nan, _ => false
  | _, .nan => false
  | .fin a, .fin b => decide (a < b)
  | .fin _, .inf => true
  | .fin _, .ninf => false
  | .inf, _ => false
  | .ninf, .ninf => false
  | .ninf, _ => true

/-- JSON values as produced by `json.loads` (which distinguishes ints from
floats, and accepts the literals `Infinity`, `-Infinity`, `NaN`).  Object
fields are the dict's items, keys unique (`json.loads` keeps the last
occurrence of a duplicate key). -/
inductive JVal where
  | jnull
  | jbool (bo : Bool)
  | jint (n : ℤ)
  | jfloat (x : PFloat)
  | jstr (s : String)
  | jarr (elems : List JVal)
  | jobj (fields : List (String × JVal))

/-- Python `x is None` for a JSON value. -/
def isNull : JVal → Bool
  | .jnull => true
  | _ => false

/-- Microseconds-since-epoch of `datetime.min = 0001-01-01T00:00:00`
(719162 days before the epoch). -/
def minMicros : ℤ := -62135596800000000

/-- Microseconds-since-epoch of `datetime.max = 9999-12-31T23:59:59.999999`. -/
def maxMicros : ℤ := 253402300799999999

/-- A Python `datetime`: `raw` is the value of the naive field tuple read as a
UTC instant in microseconds since the epoch, `off` is `utcoffset()` in
microseconds (`none` for a naive datetime).  Python datetimes are restricted
to years 1..9999, so `raw` is bounded; the bounds are part of the type. -/
structure PyDatetime where
  raw : ℤ
  off : Option ℤ
  lb : minMicros ≤ raw
  ub : raw ≤ maxMicros

/-- External library behaviour the validator depends on:
`isoparse` models `dateutil.parser.isoparse` on strings (raising = `none`),
`strFloat` models Python `float(str)` (raising = `none`). -/
structure Env where
  isoparse : String → Option PyDatetime
  strFloat : String → Option PFloat

/-- Skip reasons, named as in the specification's error taxonomy; in
`ingest.py` every one of them is a bare `continue`. -/
inductive SkipReason where
  | parse_error
  | missing_field
  | bad_timestamp
  | bad_numeric
  | temperature_out_of_range
  | future_timestamp
  | empty_sensor_id
deriving DecidableEq, Repr

/-- Uncaught Python exceptions the validator can actually raise. -/
inductive PyError where
  | typeError
  | overflowError
deriving DecidableEq, Repr

/-- The validator's output record (`normalized` dict, ingest.py lines 66-73).
`event_micros` is the normalized UTC instant; the emitted JSON renders it as
`dt.isoformat().replace("+00:00", "Z")`.  `spO2` and `battery_level` are the
raw passed-through JSON values (`record.get(...)`, `None` when absent). -/
structure NormalizedEvent where
  event_micros : ℤ
  sensor_id : String
  heart_rate : PFloat
  body_temperature : PFloat
  spO2 : JVal
  battery_level : JVal

/-- Result of the validator on one input line. -/
inductive Outcome where
  | emit (ev : NormalizedEvent)
  | skip (r : SkipReason)
  | crash (e : PyError)

/-! ### Row-key encoder (`bigtable_load.py` lines 12, 26-28) -/

def MAX_TS_MICROS : ℤ := 2 ^ 63 - 1

/-- The `w` decimal digits (most significant first) of `n % 10^w`; for
`n < 10^w` this is exactly the zero-padded `w`-digit decimal form of `n`. -/
def padDigits : ℕ → ℕ → List ℕ
  | 0, _ => []
  | w + 1, n => n / 10 ^ w :: padDigits w (n % 10 ^ w)

/-- Plain decimal digits of `n`, most significant first. -/
def decDigitsN (n : ℕ) : List ℕ := (Nat.digits 10 n).reverse

/-- Byte string of Python `f"{n:019d}"`: the decimal form of `n` left-padded
with `'0'` to at least 19 characters (a sign, when present, counts toward the
width). -/
def fmt019 (n : ℤ) : List ℕ :=
  if n < 0 then
    45 :: (if n.natAbs < 10 ^ 18 then padDigits 18 n.natAbs else decDigitsN n.natAbs).map (48 + ·)
  else
    (if n.natAbs < 10 ^ 19 then padDigits 19 n.natAbs else decDigitsN n.natAbs).map (48 + ·)

/-- UTF-8 encoding of one code point, as Python `str.encode("utf-8")` does. -/
def utf8Char (c : ℕ) : List ℕ :=
  if c < 0x80 then [c]
  else if c < 0x800 then [0xC0 + c / 64, 0x80 + c % 64]
  else if c < 0x10000 then [0xE0 + c / 4096, 0x80 + c / 64 % 64, 0x80 + c % 64]
  else [0xF0 + c / 262144, 0x80 + c / 4096 % 64, 0x80 + c / 64 % 64, 0x80 + c % 64]

/-- UTF-8 byte string of a Lean string. -/
def utf8 (s : String) : List ℕ :=
  s.data.foldr (fun c acc => utf8Char c.toNat ++ acc) []

/-- Embedding of `make_row_key` (bigtable_load.py lines 26-28):
`f"{sensor_id}#{rev:019d}".encode("utf-8")` with `rev = MAX_TS_MICROS -
event_micros`.  `'#'` and the digits are ASCII, so encoding the formatted
string equals the concatenation of the encoded pieces. -/
def make_row_key (sensor_id : String) (event_micros : ℤ) : List ℕ :=
  utf8 sensor_id ++ [35] ++ fmt019 (MAX_TS_MICROS - event_micros)

/-- Strict lexicographic order on byte strings (Python `bytes` `<`). -/
def bytesLt (a bs : List ℕ) : Prop := List.Lex (· < ·) a bs

/-- Value of a big-endian digit-byte string, as read by `int(...)` on the
decimal suffix of a row key. -/
def parseAcc (acc : ℕ) (ds : List ℕ) : ℕ :=
  ds.foldl (fun a d => 10 * a + (d - 48)) acc

/-- Integer read off the final 19 bytes of a row key (the decimal suffix
after the `'#'` separator when the suffix is 19 digits wide). -/
def decodeSuffix (key : List ℕ) : ℕ :=
  parseAcc 0 (key.drop (key.length - 19))

/-! ### Validator / normalizer (`ingest.py`) -/

/-- Python `repr` of a float; only the non-finite spellings and integral
finite values are ever inspected by a claim (Python prints finite doubles in
shortest-round-trip decimal form; the exact rendering of non-integral values
is immaterial to every theorem below). -/
def floatRepr : PFloat → String
  | .fin q => if q.den = 1 then toString q.num ++ ".0" else toString q.num ++ "/" ++ toString q.den
  | .inf => "inf"
  | .ninf => "-inf"
  | .nan => "nan"

/-- Python `str()` of a JSON value.  Container reprs are abbreviated: no
claim depends on their exact text, only on scalars (and on container reprs
being non-empty, which holds for the real `repr` as well). -/
def pyStr : JVal → String
  | .jnull => "None"
  | .jbool true => "True"
  | .jbool false => "False"
  | .jint n => toString n
  | .jfloat x => floatRepr x
  | .jstr s => s
  | .jarr _ => "[...]"
  | .jobj _ => "\x7b...\x7d"

/-- ASCII whitespace, the characters Python `str.strip()` removes (its
additional Unicode whitespace code points are not modelled; no claim uses
them). -/
def isSpaceChar (c : Char) : Bool :=
  c.toNat = 32 ∨ c.toNat = 9 ∨ c.toNat = 10 ∨ c.toNat = 11 ∨ c.toNat = 12 ∨ c.toNat = 13

/-- Python `str.strip()`: drop whitespace from both ends. -/
def pyStrip (s : String) : String :=
  ⟨((s.data.dropWhile isSpaceChar).reverse.dropWhile isSpaceChar).reverse⟩

/-- Substring test, as Python `k in s` on strings. -/
def isSubstr (needle hay : String) : Bool :=
  (List.range (hay.data.length + 1)).any fun i => needle.data.isPrefixOf (hay.data.drop i)

/-- Python `k in record` for a string `k`: key membership on dicts, substring
on strings, element membership on lists (a string compares equal only to an
equal string), and a `TypeError` on non-iterable values. -/
def pyContains : JVal → String → Except Unit Bool
  | .jobj fs, k => .ok (fs.lookup k).isSome
  | .jstr s, k => .ok (isSubstr k s)
  | .jarr xs, k => .ok (xs.any fun v => match v with | .jstr t => t == k | _ => false)
  | _, _ => .error ()

/-- Short-circuiting `all(k in record for k in ks)` (ingest.py line 27). -/
def allContains (record : JVal) : List String → Except Unit Bool
  | [] => .ok true
  | k :: ks =>
    match pyContains record k with
    | .error e => .error e
    | .ok false => .ok false
    | .ok true => allContains record ks

def required_fields : List String :=
  ["event_timestamp", "sensor_id", "heart_rate", "body_temperature"]

/-- Python `float(x)` coercion on a JSON value (ingest.py lines 40, 47):
ints and bools convert exactly, floats pass through, strings go through the
external numeric-string parser, and anything else raises (`none`).
Overflow of astronomically large ints is not modelled. -/
def pyFloat (env : Env) : JVal → Option PFloat
  | .jint n => some (.fin (n : ℚ))
  | .jfloat x => some x
  | .jbool bo => some (.fin (if bo then 1 else 0))
  | .jstr s => env.strFloat s
  | _ => none

/-- Dict field access `(fs.lookup k)` with Python `dict.get` semantics:
an absent key reads as `None`. -/
def fieldGet (fs : List (String × JVal)) (k : String) : JVal :=
  (fs.lookup k).getD .jnull

/-- Embedding of ingest.py lines 59-73: the future-timestamp check against
the single wall-clock snapshot `now`, the `sensor_id` trim/empty check, and
the construction of the normalized record.  `inst` is the normalized UTC
instant in microseconds. -/
def emitPhase (now : ℤ) (fs : List (String × JVal)) (hr temp : PFloat) (inst : ℤ) : Outcome :=
  if now < inst then .skip .future_timestamp
  else if pyStrip (pyStr (fieldGet fs "sensor_id")) = "" then .skip .empty_sensor_id
  else .emit ⟨inst, pyStrip (pyStr (fieldGet fs "sensor_id")), hr, temp,
              fieldGet fs "spO2", fieldGet fs "battery_level"⟩

/-- Embedding of the per-line body of ingest.py (lines 27-73), applied to the
already-parsed JSON value of one non-blank line.  Branches mirror the source:
the required-field membership check sits outside any `try` (a non-iterable
record raises an uncaught `TypeError`), `isoparse`/numeric failures degrade
to skips, the temperature range check precedes timezone normalization, and
`astimezone(timezone.utc)` on an aware value outside Python's datetime range
raises an uncaught `OverflowError`. -/
def processRecord (env : Env) (now : ℤ) (record : JVal) : Outcome :=
  match allContains record required_fields with
  | .error _ => .crash .typeError
  | .ok false => .skip .missing_field
  | .ok true =>
    match record with
    | .jobj fs =>
      match fieldGet fs "event_timestamp" with
      | .jstr tss =>
        match env.isoparse tss with
        | none => .skip .bad_timestamp
        | some dt =>
          if isNull (fieldGet fs "heart_rate") then .skip .bad_numeric
          else match pyFloat env (fieldGet fs "heart_rate") with
          | none => .skip .bad_numeric
          | some hr =>
            if isNull (fieldGet fs "body_temperature") then .skip .bad_numeric
            else match pyFloat env (fieldGet fs "body_temperature") with
            | none => .skip .bad_numeric
            | some temp =>
              if pfLt temp (.fin 25) || pfLt (.fin 45) temp then
                .skip .temperature_out_of_range
              else
                match dt.off with
                | none => emitPhase now fs hr temp dt.raw
                | some o =>
                  if _h : minMicros ≤ dt.raw - o ∧ dt.raw - o ≤ maxMicros then
                    emitPhase now fs hr temp (dt.raw - o)
                  else .crash .overflowError
      | _ => .skip .bad_timestamp
    | _ => .skip .bad_timestamp

/-- Per-line decisions of the whole run: ingest.py evaluates `time_now_utc`
once at module load (line 13) and every iteration of the loop compares
against that same snapshot, which the embedding reflects by applying one
fixed `now` to every record. -/
def ingestOutcomes (env : Env) (now : ℤ) (records : List JVal) : List Outcome :=
  records.map (processRecord env now)

/-- Observable effects of an ingest run over parsed records: the stream of
emitted normalized events, and the lines written to stderr/logging.  The
source contains no `print`/`logging` call, so every skip contributes nothing
to the second component; an uncaught exception aborts the remainder of the
run. -/
def ingestRun (env : Env) (now : ℤ) : List JVal → List NormalizedEvent × List String
  | [] => ([], [])
  | r :: rs =>
    match processRecord env now r with
    | .emit ev =>
      let rest := ingestRun env now rs
      (ev :: rest.1, rest.2)
    | .skip _ => ingestRun env now rs
    | .crash _ => ([], [])

/-! ### Batch writer (`bigtable_load.py` lines 53-106) -/

/-- Embedding of `b` (bigtable_load.py lines 53-54): `str(x).encode("utf-8")`. -/
def b (x : JVal) : List ℕ := utf8 (pyStr x)

/-- A staged cell mutation: column family, qualifier, value bytes. -/
abbrev Cell : Type := String × String × List ℕ

/-- Effective oxygen-saturation value `rec.get("spO2", rec.get("spo2"))`
(bigtable_load.py line 86): the default is consulted only when the key
`"spO2"` is absent, so a present-but-null `"spO2"` shadows `"spo2"`. -/
def spo2Eff (fs : List (String × JVal)) : JVal :=
  match fs.lookup "spO2" with
  | some v => v
  | none => fieldGet fs "spo2"

/-- Cell mutations staged for one record (bigtable_load.py lines 81-96), in
source order: sparse vitals/device cells guarded by `is not None`, then the
always-written metadata cells. -/
def cellsOf (fs : List (String × JVal)) (sv tv : JVal) : List Cell :=
  (if isNull (fieldGet fs "heart_rate") then []
    else [("v", "hr", b (fieldGet fs "heart_rate"))]) ++
  (if isNull (fieldGet fs "body_temperature") then []
    else [("v", "temp", b (fieldGet fs "body_temperature"))]) ++
  (if isNull (spo2Eff fs) then [] else [("v", "spo2", b (spo2Eff fs))]) ++
  (if isNull (fieldGet fs "battery_level") then []
    else [("d", "battery", b (fieldGet fs "battery_level"))]) ++
  [("m", "sensor_id", b sv), ("m", "event_timestamp", b tv)]

/-- Embedding of `iso_to_micros` (bigtable_load.py lines 15-23), with the
stdlib `datetime.fromisoformat` supplied as the external parameter
`fromiso`; any exception is `none`.  `int(dt.timestamp() * 1_000_000)` is
modelled as the exact UTC instant in microseconds (float rounding inside
`timestamp()` can perturb the value by far less than the coarse magnitude
bounds any claim relies on). -/
def iso_to_micros (fromiso : String → Option PyDatetime) (ts : String) : Option ℤ :=
  if ts = "" then none
  else
    let ts2 := if ts.data.getLast? = some 'Z' then String.mk ts.data.dropLast ++ "+00:00" else ts
    match fromiso ts2 with
    | none => none
    | some dt =>
      match dt.off with
      | none => some dt.raw
      | some o => some (dt.raw - o)

/-- The `try` body of the loader for one parsed record (bigtable_load.py
lines 74-96) up to `batch.mutate`: extract the raw `sensor_id` and
`event_timestamp` values, convert the timestamp, build the row key and cell
set.  `none` means an exception was raised and the record is skipped. -/
def tryStage (fromiso : String → Option PyDatetime) (v : JVal) :
    Option (List ℕ × List Cell) :=
  match v with
  | .jobj fs =>
    match fs.lookup "sensor_id", fs.lookup "event_timestamp" with
    | some sv, some tv =>
      match tv with
      | .jstr ts =>
        match iso_to_micros fromiso ts with
        | some m => some (make_row_key (pyStr sv) m, cellsOf fs sv tv)
        | none => none
      | _ => none
    | _, _ => none
  | _ => none

/-- One input line of the loader as the external file/`json.loads` pair
yields it: blank after strip, a parse failure, or a parsed value. -/
inductive LLine where
  | blank
  | parseFail
  | parsed (v : JVal)

/-- Observable actions of a loader run, in order: staging a row for input
line `i`, incrementing `written`, flushing the rows staged so far (by line
number), and printing the final summary. -/
inductive LAction where
  | stage (i : ℕ)
  | incr
  | flushB (staged : List ℕ)
  | report (w s : ℕ)
deriving DecidableEq, Repr

/-- Running state of `load_jsonl`: counters, the batcher's buffer (staged
line numbers), the `[skip] line=i` log lines (by line number), and the
action trace. -/
structure LoadState where
  written : ℕ
  skipped : ℕ
  buf : List ℕ
  logs : List ℕ
  trace : List LAction

/-- The guard `limit is not None and written >= limit` (bigtable_load.py
line 64). -/
def limitReached (limit : Option ℕ) (w : ℕ) : Bool :=
  match limit with
  | some lim => decide (lim ≤ w)
  | none => false

/-- The per-line loop of `load_jsonl` (bigtable_load.py lines 63-103).
`i` is the 1-based line number; the `limit` check precedes everything,
blank lines are silently ignored, a failed `tryStage` is counted and logged,
and a successful stage appends to the batcher buffer, increments `written`,
and auto-flushes when the buffer reaches `flush_count = 1000` rows. -/
def loadLoop (fromiso : String → Option PyDatetime) (limit : Option ℕ) :
    List LLine → ℕ → LoadState → LoadState
  | [], _, st => st
  | l :: ls, i, st =>
    if limitReached limit st.written then st
    else
      match l with
      | .blank => loadLoop fromiso limit ls (i + 1) st
      | .parseFail =>
        loadLoop fromiso limit ls (i + 1)
          { st with skipped := st.skipped + 1, logs := st.logs ++ [i] }
      | .parsed v =>
        match tryStage fromiso v with
        | none =>
          loadLoop fromiso limit ls (i + 1)
            { st with skipped := st.skipped + 1, logs := st.logs ++ [i] }
        | some _ =>
          let st1 : LoadState :=
            { st with written := st.written + 1, buf := st.buf ++ [i],
                      trace := st.trace ++ [.stage i, .incr] }
          let st2 : LoadState :=
            if 1000 ≤ st1.buf.length then
              { st1 with buf := [], trace := st1.trace ++ [.flushB st1.buf] }
            else st1
          loadLoop fromiso limit ls (i + 1) st2

/-- Embedding of `load_jsonl` (bigtable_load.py lines 57-106): run the loop
from line 1, then flush unconditionally and print the summary. -/
def load_jsonl (fromiso : String → Option PyDatetime) (lines : List LLine)
    (limit : Option ℕ) : LoadState :=
  let st := loadLoop fromiso limit lines 1 ⟨0, 0, [], [], []⟩
  { st with buf := [],
            trace := st.trace ++ [.flushB st.buf, .report st.written st.skipped] }

/-- Number of `stage` actions in a trace. -/
def countStage (tr : List LAction) : ℕ :=
  tr.countP fun a => match a with | .stage _ => true | _ => false

/-- Whether an action is a batch flush. -/
def isFlush : LAction → Bool
  | .flushB _ => true
  | _ => false

/-- The claim C7 asserts of a trace: every increment of `written` happens
only after some flush has already been confirmed (in particular, after the
flush covering the event just staged). -/
def incrOnlyAfterFlush (tr : List LAction) : Prop :=
  ∀ j : Fin tr.length, tr.get j = .incr →
    ∃ k : Fin tr.length, k.val < j.val ∧ isFlush (tr.get k) = true

instance (tr : List LAction) : Decidable (incrOnlyAfterFlush tr) := by
  unfold incrOnlyAfterFlush
  infer_instance

/-! ### Concrete external stand-ins and test fixtures -/

/-- The aware datetime `1970-01-01T00:00:00+00:00`. -/
def epochDT : PyDatetime := ⟨0, some 0, by norm_num [minMicros], by norm_num [maxMicros]⟩

/-- The aware datetime `1969-12-31T23:59:59.999999+00:00`, one microsecond
before the epoch. -/
def preDT : PyDatetime := ⟨-1, some 0, by norm_num [minMicros], by norm_num [maxMicros]⟩

/-- Stand-in for `dateutil.parser.isoparse` and `datetime.fromisoformat`,
defined on exactly the timestamp strings the concrete witnesses use, with
the values the real parsers return on them (field micros, UTC offset). -/
def isoparse0 : String → Option PyDatetime := fun s =>
  if s = "1970-01-01T00:00:00Z" ∨ s = "1970-01-01T00:00:00+00:00" then some epochDT
  else if s = "1969-12-31T23:59:59.999999Z" ∨ s = "1969-12-31T23:59:59.999999+00:00" then
    some preDT
  else none

/-- Concrete external environment used by witnesses and counterexamples. -/
def env0 : Env := ⟨isoparse0, fun _ => none⟩

/-- A well-formed raw record at the epoch instant. -/
def rec0 : JVal :=
  .jobj [("event_timestamp", .jstr "1970-01-01T00:00:00Z"), ("sensor_id", .jstr "s1"),
         ("heart_rate", .jint 70), ("body_temperature", .jint 37)]

/-- The normalized event `rec0` produces under `env0` with snapshot `0`. -/
def ev0 : NormalizedEvent :=
  ⟨0, "s1", .fin ((70 : ℤ) : ℚ), .fin ((37 : ℤ) : ℚ), .jnull, .jnull⟩

/-- A raw record with `heart_rate` equal to the JSON literal `Infinity`
(accepted by `json.loads`). -/
def recInf : JVal :=
  .jobj [("event_timestamp", .jstr "1970-01-01T00:00:00Z"), ("sensor_id", .jstr "s1"),
         ("heart_rate", .jfloat .inf), ("body_temperature", .jint 37)]

/-- The normalized event `recInf` produces: its heart rate is `inf`. -/
def evInf : NormalizedEvent :=
  ⟨0, "s1", .inf, .fin ((37 : ℤ) : ℚ), .jnull, .jnull⟩

/-- A raw record with `body_temperature` equal to the JSON literal `NaN`. -/
def recNaN : JVal :=
  .jobj [("event_timestamp", .jstr "1970-01-01T00:00:00Z"), ("sensor_id", .jstr "s1"),
         ("heart_rate", .jint 70), ("body_temperature", .jfloat .nan)]

/-- The normalized event `recNaN` produces: its body temperature is `nan`. -/
def evNaN : NormalizedEvent :=
  ⟨0, "s1", .fin ((70 : ℤ) : ℚ), .nan, .jnull, .jnull⟩

/-- A raw record at the lower temperature boundary `25`. -/
def rec25 : JVal :=
  .jobj [("event_timestamp", .jstr "1970-01-01T00:00:00Z"), ("sensor_id", .jstr "s1"),
         ("heart_rate", .jint 70), ("body_temperature", .jint 25)]

/-- The normalized event `rec25` produces. -/
def ev25 : NormalizedEvent :=
  ⟨0, "s1", .fin ((70 : ℤ) : ℚ), .fin ((25 : ℤ) : ℚ), .jnull, .jnull⟩

/-- A raw record at the upper temperature boundary `45`. -/
def rec45 : JVal :=
  .jobj [("event_timestamp", .jstr "1970-01-01T00:00:00Z"), ("sensor_id", .jstr "s1"),
         ("heart_rate", .jint 70), ("body_temperature", .jint 45)]

/-- The normalized event `rec45` produces. -/
def ev45 : NormalizedEvent :=
  ⟨0, "s1", .fin ((70 : ℤ) : ℚ), .fin ((45 : ℤ) : ℚ), .jnull, .jnull⟩

/-- Fields of a raw record whose temperature `24.999` is just below range. -/
def fs24999 : List (String × JVal) :=
  [("event_timestamp", .jstr "1970-01-01T00:00:00Z"), ("sensor_id", .jstr "s1"),
   ("heart_rate", .jint 70), ("body_temperature", .jfloat (.fin (24999 / 1000)))]

/-- Fields of a raw record carrying the oxygen saturation only under the
lowercase `spo2` spelling. -/
def fs5 : List (String × JVal) :=
  [("event_timestamp", .jstr "1970-01-01T00:00:00Z"), ("sensor_id", .jstr "s1"),
   ("heart_rate", .jint 70), ("body_temperature", .jint 37), ("spo2", .jint 98)]

/-- The normalized event `JVal.jobj fs5` produces: its canonical `spO2` is
null although the input carried `spo2 = 98`. -/
def ev5 : NormalizedEvent :=
  ⟨0, "s1", .fin ((70 : ℤ) : ℚ), .fin ((37 : ℤ) : ℚ), .jnull, .jnull⟩

/-- A raw record one microsecond before the Unix epoch. -/
def recPre : JVal :=
  .jobj [("event_timestamp", .jstr "1969-12-31T23:59:59.999999Z"), ("sensor_id", .jstr "s1"),
         ("heart_rate", .jint 70), ("body_temperature", .jint 37)]

/-- The normalized event `recPre` produces: a negative instant. -/
def evPre : NormalizedEvent :=
  ⟨-1, "s1", .fin ((70 : ℤ) : ℚ), .fin ((37 : ℤ) : ℚ), .jnull, .jnull⟩

/-- Loader-side fields where a null `spO2` key shadows a present, non-null
`spo2` key. -/
def fs9 : List (String × JVal) :=
  [("sensor_id", .jstr "s"), ("event_timestamp", .jstr "1970-01-01T00:00:00Z"),
   ("spO2", .jnull), ("spo2", .jint 98)]

/-- What the temperature range check lets through: a finite value in
`[25, 45]`, or `nan` (both of Python's comparisons on `nan` are false, so a
`nan` temperature passes `temp < 25.0 or temp > 45.0` unchecked). -/
def tempOK (t : PFloat) : Prop := t = .nan ∨ ∃ q : ℚ, t = .fin q ∧ 25 ≤ q ∧ q ≤ 45

/-! ### Arithmetic lemmas about the padded-decimal encoding -/

theorem padDigits_length (w n : ℕ) : (padDigits w n).length = w := by
  induction w generalizing n with
  | zero => rfl
  | succ w ih => simp [padDigits, ih]

theorem lex_append_left {r : ℕ → ℕ → Prop} (xs : List ℕ) {ys zs : List ℕ}
    (h : List.Lex r ys zs) : List.Lex r (xs ++ ys) (xs ++ zs) := by
  induction xs with
  | nil => exact h
  | cons a t ih => exact List.Lex.cons ih

theorem lex_map_add48 {ds es : List ℕ} (h : List.Lex (· < ·) ds es) :
    List.Lex (· < ·) (ds.map (48 + ·)) (es.map (48 + ·)) := by
  induction h with
  | nil => exact List.Lex.nil
  | cons _ ih => exact List.Lex.cons ih
  | rel hr => exact List.Lex.rel (by simpa using Nat.add_lt_add_left hr 48)

theorem padDigits_lex (w : ℕ) : ∀ n m : ℕ, n < m → m < 10 ^ w →
    List.Lex (· < ·) (padDigits w n) (padDigits w m) := by
  induction w with
  | zero => intro n m hnm hm; omega
  | succ w ih =>
    intro n m hnm hm
    have hd : n / 10 ^ w ≤ m / 10 ^ w := Nat.div_le_div_right hnm.le
    rcases Nat.lt_or_ge (n / 10 ^ w) (m / 10 ^ w) with hlt | hge
    · exact List.Lex.rel hlt
    · have heq : n / 10 ^ w = m / 10 ^ w := le_antisymm hd hge
      have hpow : 0 < 10 ^ w := Nat.pos_pow_of_pos w (by norm_num)
      have hmod : n % 10 ^ w < m % 10 ^ w := by
        have h1 := Nat.div_add_mod n (10 ^ w)
        have h2 := Nat.div_add_mod m (10 ^ w)
        rw [heq] at h1
        omega
      have hmlt : m % 10 ^ w < 10 ^ w := Nat.mod_lt _ hpow
      simp only [padDigits, heq]
      exact List.Lex.cons (ih _ _ hmod hmlt)

theorem parseAcc_padDigits (w : ℕ) : ∀ (n acc : ℕ), n < 10 ^ w →
    parseAcc acc ((padDigits w n).map (48 + ·)) = acc * 10 ^ w + n := by
  induction w with
  | zero =>
    intro n acc hn
    interval_cases n
    simp [parseAcc, padDigits]
  | succ w ih =>
    intro n acc hn
    have hpow : 0 < 10 ^ w := Nat.pos_pow_of_pos w (by norm_num)
    have hmod : n % 10 ^ w < 10 ^ w := Nat.mod_lt _ hpow
    have step : parseAcc acc ((padDigits (w + 1) n).map (48 + ·)) =
        parseAcc (10 * acc + n / 10 ^ w) ((padDigits w (n % 10 ^ w)).map (48 + ·)) := by
      simp [padDigits, parseAcc]
    rw [step, ih _ _ hmod]
    have hdm := Nat.div_add_mod n (10 ^ w)
    calc (10 * acc + n / 10 ^ w) * 10 ^ w + n % 10 ^ w
        = acc * 10 ^ (w + 1) + (10 ^ w * (n / 10 ^ w) + n % 10 ^ w) := by ring
      _ = acc * 10 ^ (w + 1) + n := by rw [hdm]

theorem drop_len_append (xs ys : List ℕ) : (xs ++ ys).drop xs.length = ys := by
  induction xs with
  | nil => rfl
  | cons a t ih => simp [ih]

/-- Unfolding of `fmt019` on the in-range branch. -/
theorem fmt019_of_range {n : ℤ} (h0 : 0 ≤ n) (h1 : n < 10 ^ 19) :
    fmt019 n = (padDigits 19 n.toNat).map (48 + ·) := by
  have hna : n.natAbs < 10 ^ 19 := by omega
  have hnn : ¬ n < 0 := not_lt.mpr h0
  have habs : n.natAbs = n.toNat := by omega
  rw [fmt019, if_neg hnn, if_pos hna, habs]

theorem fmt019_length_of_range {n : ℤ} (h0 : 0 ≤ n) (h1 : n < 10 ^ 19) :
    (fmt019 n).length = 19 := by
  rw [fmt019_of_range h0 h1]
  simp [padDigits_length]

/-! ### C1: descending-time lexicographic ordering of row keys -/

/-- C1: for one sensor and microsecond timestamps `m1 < m2` in
`[0, 2^63 - 1]`, the row key of the later event is lexicographically
strictly below the row key of the earlier event, so an ascending key scan
within the sensor's prefix yields events newest-first. -/
theorem C1_descending_key_order (s : String) (m1 m2 : ℤ)
    (h0 : 0 ≤ m1) (h2 : m2 ≤ 2 ^ 63 - 1) (h12 : m1 < m2) :
    bytesLt (make_row_key s m2) (make_row_key s m1) := by
  have hr0 : (0 : ℤ) ≤ MAX_TS_MICROS - m2 := by simp [MAX_TS_MICROS]; omega
  have hr0' : (0 : ℤ) ≤ MAX_TS_MICROS - m1 := by simp [MAX_TS_MICROS]; omega
  have hrlt : MAX_TS_MICROS - m2 < MAX_TS_MICROS - m1 := by omega
  have hub : MAX_TS_MICROS - m1 < 10 ^ 19 := by simp [MAX_TS_MICROS]; omega
  have hub2 : MAX_TS_MICROS - m2 < 10 ^ 19 := lt_trans hrlt hub
  unfold bytesLt make_row_key
  rw [fmt019_of_range hr0 hub2, fmt019_of_range hr0' hub]
  rw [List.append_assoc, List.append_assoc]
  apply lex_append_left
  apply lex_append_left
  apply lex_map_add48
  apply padDigits_lex
  · omega
  · omega

/-- Witness for C1 at `s = "s1"`, `m1 = 0`, `m2 = 1`. -/
theorem C1_descending_key_order_witness :
    (0 : ℤ) ≤ 0 ∧ (1 : ℤ) ≤ 2 ^ 63 - 1 ∧ (0 : ℤ) < 1 ∧
      bytesLt (make_row_key "s1" 1) (make_row_key "s1" 0) :=
  ⟨by norm_num, by norm_num, by norm_num,
    C1_descending_key_order "s1" 0 1 (by norm_num) (by norm_num) (by norm_num)⟩

/-! ### C8: determinism and round-trip of the row key -/

/-- C8: `make_row_key` is deterministic (equal inputs give equal keys), and
for `event_micros` in `[0, 2^63 - 1]` reading the 19-digit decimal suffix
back as an integer recovers exactly `(2^63 - 1) - event_micros`. -/
theorem C8_rowkey_roundtrip (s1 s2 : String) (m1 m2 : ℤ)
    (hs : s1 = s2) (hm : m1 = m2) (h0 : 0 ≤ m1) (h1 : m1 ≤ 2 ^ 63 - 1) :
    make_row_key s1 m1 = make_row_key s2 m2 ∧
      (decodeSuffix (make_row_key s1 m1) : ℤ) = 2 ^ 63 - 1 - m1 := by
  subst hs hm
  refine ⟨rfl, ?_⟩
  have hr0 : (0 : ℤ) ≤ MAX_TS_MICROS - m1 := by simp [MAX_TS_MICROS]; omega
  have hub : MAX_TS_MICROS - m1 < 10 ^ 19 := by simp [MAX_TS_MICROS]; omega
  have hnat : (MAX_TS_MICROS - m1).toNat < 10 ^ 19 := by omega
  unfold decodeSuffix make_row_key
  rw [fmt019_of_range hr0 hub]
  have hlen : (utf8 s1 ++ [35] ++ (padDigits 19 (MAX_TS_MICROS - m1).toNat).map (48 + ·)).length
      = (utf8 s1 ++ [35]).length + 19 := by
    simp [padDigits_length]
  rw [hlen, Nat.add_sub_cancel, drop_len_append, parseAcc_padDigits 19 _ 0 hnat]
  simp [MAX_TS_MICROS]
  omega

/-- Witness for C8 at `s = "s1"`, `m = 5`. -/
theorem C8_rowkey_roundtrip_witness :
    make_row_key "s1" 5 = make_row_key "s1" 5 ∧
      (decodeSuffix (make_row_key "s1" 5) : ℤ) = 2 ^ 63 - 1 - 5 :=
  C8_rowkey_roundtrip "s1" "s1" 5 5 rfl rfl (by norm_num) (by norm_num)

/-! ### Inversion lemmas for the validator -/

theorem isNull_eq_false_iff (v : JVal) : isNull v = false ↔ v ≠ .jnull := by
  cases v <;> simp [isNull]

theorem tempOK_of_check {t : PFloat}
    (h : (pfLt t (.fin 25) || pfLt (.fin 45) t) = false) : tempOK t := by
  cases t with
  | fin q =>
    have h1 : decide (q < 25) = false := (Bool.or_eq_false_iff.mp h).1
    have h2 : decide ((45 : ℚ) < q) = false := (Bool.or_eq_false_iff.mp h).2
    exact Or.inr ⟨q, rfl, not_lt.mp (by simpa using h1), not_lt.mp (by simpa using h2)⟩
  | inf => simp [pfLt] at h
  | ninf => simp [pfLt] at h
  | nan => exact Or.inl rfl

theorem emitPhase_emit_inv {now : ℤ} {fs : List (String × JVal)} {hr temp : PFloat}
    {inst : ℤ} {ev : NormalizedEvent} (h : emitPhase now fs hr temp inst = .emit ev) :
    inst ≤ now ∧
      ev = ⟨inst, pyStrip (pyStr (fieldGet fs "sensor_id")), hr, temp,
            fieldGet fs "spO2", fieldGet fs "battery_level"⟩ := by
  unfold emitPhase at h
  split at h
  · exact absurd h (by simp)
  · split at h
    · exact absurd h (by simp)
    · rename_i hnow _
      cases h
      exact ⟨le_of_not_lt hnow, rfl⟩

theorem emitPhase_future {now : ℤ} {fs : List (String × JVal)} {hr temp : PFloat}
    {inst : ℤ} (hgt : now < inst) :
    emitPhase now fs hr temp inst = .skip .future_timestamp := by
  unfold emitPhase
  rw [if_pos hgt]

theorem emitPhase_not_future {now : ℤ} {fs : List (String × JVal)} {hr temp : PFloat}
    {inst : ℤ} (hle : inst ≤ now) :
    emitPhase now fs hr temp inst ≠ .skip .future_timestamp := by
  unfold emitPhase
  rw [if_neg (not_lt.mpr hle)]
  split <;> simp

theorem processRecord_emit_inv {env : Env} {now : ℤ} {record : JVal}
    {ev : NormalizedEvent} (h : processRecord env now record = .emit ev) :
    ∃ fs, record = .jobj fs ∧
      ev.event_micros ≤ now ∧
      minMicros ≤ ev.event_micros ∧ ev.event_micros ≤ maxMicros ∧
      tempOK ev.body_temperature ∧
      ev.spO2 = fieldGet fs "spO2" ∧
      ev.battery_level = fieldGet fs "battery_level" ∧
      ev.sensor_id = pyStrip (pyStr (fieldGet fs "sensor_id")) := by
  unfold processRecord at h
  split at h
  · exact absurd h (by simp)
  · exact absurd h (by simp)
  · split at h
    · rename_i fs hAll
      refine ⟨fs, rfl, ?_⟩
      split at h
      · rename_i tss _
        split at h
        · exact absurd h (by simp)
        · rename_i dt _
          split at h
          · exact absurd h (by simp)
          · split at h
            · exact absurd h (by simp)
            · rename_i hr _
              split at h
              · exact absurd h (by simp)
              · split at h
                · exact absurd h (by simp)
                · rename_i temp _
                  split at h
                  · exact absurd h (by simp)
                  · rename_i hrange
                    have htemp : tempOK temp :=
                      tempOK_of_check (Bool.of_not_eq_true hrange)
                    split at h
                    · rcases emitPhase_emit_inv h with ⟨hle, hev⟩
                      subst hev
                      exact ⟨hle, dt.lb, dt.ub, htemp, rfl, rfl, rfl⟩
                    · split at h
                      · rename_i hb
                        rcases emitPhase_emit_inv h with ⟨hle, hev⟩
                        subst hev
                        exact ⟨hle, hb.1, hb.2, htemp, rfl, rfl, rfl⟩
                      · exact absurd h (by simp)
      · exact absurd h (by simp)
    · exact absurd h (by simp)

/-! ### C2: single wall-clock snapshot and the future-timestamp check -/

/-- C2: the validator judges every line against the one wall-clock snapshot
taken at pipeline start (the same `now` is applied at every position of the
input); an event whose normalized timestamp is at or before the snapshot
passes the future-timestamp check, and one strictly after it is skipped with
reason `future_timestamp`. -/
theorem C2_single_snapshot (env : Env) (now : ℤ) :
    (∀ pre post r, ingestOutcomes env now (pre ++ r :: post) =
        ingestOutcomes env now pre ++
          processRecord env now r :: ingestOutcomes env now post) ∧
    (∀ record ev, processRecord env now record = .emit ev → ev.event_micros ≤ now) ∧
    (∀ fs hr temp inst, now < inst →
        emitPhase now fs hr temp inst = .skip .future_timestamp) ∧
    (∀ fs hr temp inst, inst ≤ now →
        emitPhase now fs hr temp inst ≠ .skip .future_timestamp) := by
  refine ⟨?_, ?_, ?_, ?_⟩
  · intro pre post r
    simp [ingestOutcomes]
  · intro record ev h
    obtain ⟨fs, _, hle, _⟩ := processRecord_emit_inv h
    exact hle
  · intro fs hr temp inst hgt
    exact emitPhase_future hgt
  · intro fs hr temp inst hle
    exact emitPhase_not_future hle

/-- Witness for C2: `rec0` (timestamped exactly at the snapshot) is emitted
with instant `≤ now`; an instant one microsecond after the snapshot is
skipped as `future_timestamp`, one at the snapshot is not. -/
theorem C2_single_snapshot_witness :
    ev0.event_micros ≤ 0 ∧
      emitPhase 0 [] PFloat.inf PFloat.inf 1 = .skip .future_timestamp ∧
      emitPhase 0 [] PFloat.inf PFloat.inf 0 ≠ .skip .future_timestamp :=
  ⟨(C2_single_snapshot env0 0).2.1 rec0 ev0 rfl,
   (C2_single_snapshot env0 0).2.2.1 [] .inf .inf 1 (by norm_num),
   (C2_single_snapshot env0 0).2.2.2 [] .inf .inf 0 (by norm_num)⟩

/-! ### C3: temperature range invariant (corrected) -/

/-- C3 (amended): an accepted record's body temperature is either a finite
value in `[25, 45]` or `nan` (which passes both comparisons of the range
check); a record whose temperature coerces to a finite value outside
`[25, 45]` is skipped with `temperature_out_of_range`; both boundary values
are accepted.  No finiteness guarantee holds for `heart_rate`. -/
theorem C3_temperature_amended :
    (∀ env now record ev, processRecord env now record = .emit ev →
        tempOK ev.body_temperature) ∧
    (∀ (env : Env) (now : ℤ) fs ts dt (q : ℚ),
        allContains (JVal.jobj fs) required_fields = .ok true →
        fieldGet fs "event_timestamp" = .jstr ts →
        env.isoparse ts = some dt →
        isNull (fieldGet fs "heart_rate") = false →
        pyFloat env (fieldGet fs "heart_rate") ≠ none →
        isNull (fieldGet fs "body_temperature") = false →
        pyFloat env (fieldGet fs "body_temperature") = some (.fin q) →
        (q < 25 ∨ 45 < q) →
        processRecord env now (.jobj fs) = .skip .temperature_out_of_range) ∧
    processRecord env0 0 rec25 = .emit ev25 ∧
    processRecord env0 0 rec45 = .emit ev45 := by
  refine ⟨?_, ?_, rfl, rfl⟩
  · intro env now record ev h
    obtain ⟨fs, _, _, _, _, htemp, _⟩ := processRecord_emit_inv h
    exact htemp
  · intro env now fs ts dt q hAll hts hiso hhrn hhrf htn htq hq
    obtain ⟨hr, hhr⟩ := Option.ne_none_iff_exists'.mp hhrf
    have hcheck : (pfLt (.fin q) (.fin 25) || pfLt (.fin 45) (.fin q)) = true := by
      rcases hq with hlt | hlt
      · exact Bool.or_eq_true_iff.mpr (Or.inl (by simp [pfLt, hlt]))
      · exact Bool.or_eq_true_iff.mpr (Or.inr (by simp [pfLt, hlt]))
    unfold processRecord
    rw [hAll]
    simp only [hts, hiso, hhrn, hhr, htn, htq, hcheck, Bool.false_eq_true, if_false, if_true]

/-- Witness for C3: the emitted `ev0` satisfies the amended temperature
invariant, and the spec's boundary input `24.999` is skipped with
`temperature_out_of_range`. -/
theorem C3_temperature_amended_witness :
    tempOK ev0.body_temperature ∧
      processRecord env0 0 (.jobj fs24999) = .skip .temperature_out_of_range :=
  ⟨C3_temperature_amended.1 env0 0 rec0 ev0 rfl,
   C3_temperature_amended.2.1 env0 0 fs24999 "1970-01-01T00:00:00Z" epochDT
     (24999 / 1000) rfl rfl rfl rfl
     (by rw [show fieldGet fs24999 "heart_rate" = JVal.jint 70 from rfl]; simp [pyFloat])
     rfl rfl (Or.inl (by norm_num))⟩

/-- C3 counterexample: the claim asserts every accepted record has finite
`heart_rate` and `body_temperature` in `[25, 45]`, but a `heart_rate` of
`Infinity` is accepted unchecked, and a `body_temperature` of `NaN` passes
the range check. -/
theorem C3_nonfinite_accepted_cex :
    (processRecord env0 0 recInf = .emit evInf ∧ evInf.heart_rate = .inf) ∧
      (processRecord env0 0 recNaN = .emit evNaN ∧ evNaN.body_temperature = .nan) :=
  ⟨⟨rfl, rfl⟩, ⟨rfl, rfl⟩⟩

/-! ### C4: totality on malformed lines (code bug) -/

/-- C4: the claim says no input line can abort the pipeline, but the
required-field membership check `all(k in record for k in required_fields)`
sits outside every `try`; a line whose JSON parses to a number (here `7`)
makes `k in record` raise an uncaught `TypeError`, and the run aborts,
losing all subsequent lines. -/
theorem C4_nonobject_crash :
    processRecord env0 0 (.jint 7) = .crash .typeError ∧
      ingestRun env0 0 [.jint 7, rec0] = ([], []) :=
  ⟨rfl, rfl⟩

/-! ### C5: spO2 pass-through (corrected) -/

/-- C5 (amended): the validator's canonical `spO2` output equals the value
of the input key `spO2` when that key is present and is null otherwise — the
lowercase `spo2` spelling is ignored by the validator (`record.get("spO2")`,
ingest.py line 71); only the loader consults `spo2`, and there a present
`spO2` key takes priority even when its value is null. -/
theorem C5_spo2_passthrough_amended :
    (∀ env now record ev, processRecord env now record = .emit ev →
        ∃ fs, record = .jobj fs ∧ ev.spO2 = fieldGet fs "spO2" ∧
          ev.battery_level = fieldGet fs "battery_level") ∧
    (∀ fs v, fs.lookup "spO2" = some v → spo2Eff fs = v) ∧
    (∀ fs, fs.lookup "spO2" = none → spo2Eff fs = fieldGet fs "spo2") := by
  refine ⟨?_, ?_, ?_⟩
  · intro env now record ev h
    obtain ⟨fs, hrec, _, _, _, _, hsp, hbat, _⟩ := processRecord_emit_inv h
    exact ⟨fs, hrec, hsp, hbat⟩
  · intro fs v hv
    unfold spo2Eff
    rw [hv]
  · intro fs hv
    unfold spo2Eff
    rw [hv]

/-- Witness for C5 at the concrete record `rec0` and lookups over `fs9`. -/
theorem C5_spo2_passthrough_amended_witness :
    (∃ fs, rec0 = .jobj fs ∧ ev0.spO2 = fieldGet fs "spO2" ∧
        ev0.battery_level = fieldGet fs "battery_level") ∧
      spo2Eff fs9 = .jnull ∧ spo2Eff fs5 = fieldGet fs5 "spo2" :=
  ⟨C5_spo2_passthrough_amended.1 env0 0 rec0 ev0 rfl,
   C5_spo2_passthrough_amended.2.1 fs9 .jnull rfl,
   C5_spo2_passthrough_amended.2.2 fs5 rfl⟩

/-- C5 counterexample: a record carrying the oxygen saturation only as
`spo2 = 98` is accepted, yet the emitted canonical `spO2` is null — the
claim's "equals that input value / null only when neither spelling is
present" fails on the validator. -/
theorem C5_spo2_lowercase_dropped_cex :
    processRecord env0 0 (.jobj fs5) = .emit ev5 ∧ ev5.spO2 = .jnull ∧
      fs5.lookup "spo2" = some (.jint 98) :=
  ⟨rfl, rfl, rfl⟩

/-! ### C6: skip accounting (corrected) -/

theorem ingestRun_no_logs (env : Env) (now : ℤ) :
    ∀ recs, (ingestRun env now recs).2 = []
  | [] => rfl
  | r :: rs => by
    simp only [ingestRun]
    split
    · exact ingestRun_no_logs env now rs
    · exact ingestRun_no_logs env now rs
    · rfl

theorem loadLoop_logs (fromiso : String → Option PyDatetime) (limit : Option ℕ) :
    ∀ (ls : List LLine) (i : ℕ) (st : LoadState),
      ∃ δ, (loadLoop fromiso limit ls i st).logs = st.logs ++ δ ∧
        (loadLoop fromiso limit ls i st).skipped = st.skipped + δ.length ∧
        ∀ n ∈ δ, i ≤ n ∧ n < i + ls.length
  | [], i, st => ⟨[], by simp [loadLoop], by simp [loadLoop], by simp⟩
  | l :: ls, i, st => by
    cases l with
    | blank =>
      simp only [loadLoop]
      split
      · exact ⟨[], by simp, by simp, by simp⟩
      · obtain ⟨δ, h1, h2, h3⟩ := loadLoop_logs fromiso limit ls (i + 1) st
        refine ⟨δ, h1, h2, fun n hn => ?_⟩
        have := h3 n hn
        simp only [List.length_cons]
        omega
    | parseFail =>
      simp only [loadLoop]
      split
      · exact ⟨[], by simp, by simp, by simp⟩
      · obtain ⟨δ, h1, h2, h3⟩ := loadLoop_logs fromiso limit ls (i + 1)
          { st with skipped := st.skipped + 1, logs := st.logs ++ [i] }
        refine ⟨i :: δ, ?_, ?_, ?_⟩
        · rw [h1]
          simp
        · rw [h2]
          simp only [List.length_cons]
          omega
        · intro n hn
          simp only [List.length_cons]
          rcases List.mem_cons.mp hn with rfl | hn
          · omega
          · have := h3 n hn
            omega
    | parsed v =>
      simp only [loadLoop]
      split
      · exact ⟨[], by simp, by simp, by simp⟩
      · split
        · obtain ⟨δ, h1, h2, h3⟩ := loadLoop_logs fromiso limit ls (i + 1)
            { st with skipped := st.skipped + 1, logs := st.logs ++ [i] }
          refine ⟨i :: δ, ?_, ?_, ?_⟩
          · rw [h1]
            simp
          · rw [h2]
            simp only [List.length_cons]
            omega
          · intro n hn
            simp only [List.length_cons]
            rcases List.mem_cons.mp hn with rfl | hn
            · omega
            · have := h3 n hn
              omega
        · split
          · obtain ⟨δ, h1, h2, h3⟩ := loadLoop_logs fromiso limit ls (i + 1)
              { written := st.written + 1, skipped := st.skipped, buf := [],
                logs := st.logs,
                trace := st.trace ++ [.stage i, .incr] ++ [.flushB (st.buf ++ [i])] }
            refine ⟨δ, h1, h2, fun n hn => ?_⟩
            have := h3 n hn
            simp only [List.length_cons]
            omega
          · obtain ⟨δ, h1, h2, h3⟩ := loadLoop_logs fromiso limit ls (i + 1)
              { written := st.written + 1, skipped := st.skipped, buf := st.buf ++ [i],
                logs := st.logs, trace := st.trace ++ [.stage i, .incr] }
            refine ⟨δ, h1, h2, fun n hn => ?_⟩
            have := h3 n hn
            simp only [List.length_cons]
            omega

/-- C6 (amended): the batch writer counts and logs every skip — its final
`skipped` equals the number of `[skip] line=i` log lines, each carrying a
line number within the input — but the validator's skips are silent: an
ingest run never writes a log line, whatever is skipped. -/
theorem C6_skip_logging_amended :
    (∀ (env : Env) (now : ℤ) recs, (ingestRun env now recs).2 = []) ∧
    (∀ (fromiso : String → Option PyDatetime) (lines : List LLine) (limit : Option ℕ),
        (load_jsonl fromiso lines limit).skipped =
          (load_jsonl fromiso lines limit).logs.length ∧
        ∀ n ∈ (load_jsonl fromiso lines limit).logs, 1 ≤ n ∧ n ≤ lines.length) := by
  refine ⟨fun env now recs => ingestRun_no_logs env now recs, ?_⟩
  intro fromiso lines limit
  obtain ⟨δ, h1, h2, h3⟩ := loadLoop_logs fromiso limit lines 1 ⟨0, 0, [], [], []⟩
  constructor
  · show (loadLoop fromiso limit lines 1 ⟨0, 0, [], [], []⟩).skipped =
      (loadLoop fromiso limit lines 1 ⟨0, 0, [], [], []⟩).logs.length
    rw [h1, h2]
    simp
  · intro n hn
    show 1 ≤ n ∧ n ≤ lines.length
    have hδ : n ∈ δ := by
      have : (loadLoop fromiso limit lines 1 ⟨0, 0, [], [], []⟩).logs = δ := by
        simpa using h1
      rw [show (load_jsonl fromiso lines limit).logs =
        (loadLoop fromiso limit lines 1 ⟨0, 0, [], [], []⟩).logs from rfl, this] at hn
      exact hn
    have := h3 n hδ
    omega

/-- Witness for C6: a concrete loader run over a blank line and a bad line
has `skipped = 1 = #logs`, and the logged line number `2` is in range; the
concrete validator run that skips its only record emits no log line. -/
theorem C6_skip_logging_amended_witness :
    (ingestRun env0 0 [JVal.jobj []]).2 = [] ∧
      (load_jsonl isoparse0 [.blank, .parseFail] none).skipped =
        (load_jsonl isoparse0 [.blank, .parseFail] none).logs.length ∧
      (1 ≤ 2 ∧ 2 ≤ ([LLine.blank, LLine.parseFail] : List LLine).length) :=
  ⟨C6_skip_logging_amended.1 env0 0 [JVal.jobj []],
   (C6_skip_logging_amended.2 isoparse0 [.blank, .parseFail] none).1,
   (C6_skip_logging_amended.2 isoparse0 [.blank, .parseFail] none).2 2 (by decide)⟩

/-- C6 counterexample: the validator skips `{}` (missing required fields)
but records nothing: the run's log stream is empty and no counter exists —
the claim's "counted and logged with its line number and a skip reason, in
both the validator and the batch writer" fails on the validator. -/
theorem C6_validator_silent_skip_cex :
    processRecord env0 0 (JVal.jobj []) = .skip .missing_field ∧
      ingestRun env0 0 [JVal.jobj []] = ([], []) :=
  ⟨rfl, rfl⟩

/-! ### C7: when the written counter is incremented (corrected) -/

theorem countStage_append (t u : List LAction) :
    countStage (t ++ u) = countStage t + countStage u := by
  simp [countStage, List.countP_append]

theorem loadLoop_countStage (fromiso : String → Option PyDatetime) (limit : Option ℕ) :
    ∀ (ls : List LLine) (i : ℕ) (st : LoadState),
      (loadLoop fromiso limit ls i st).written + countStage st.trace =
        st.written + countStage (loadLoop fromiso limit ls i st).trace
  | [], _, st => by simp [loadLoop]
  | l :: ls, i, st => by
    cases l with
    | blank =>
      simp only [loadLoop]
      split
      · rfl
      · exact loadLoop_countStage fromiso limit ls (i + 1) st
    | parseFail =>
      simp only [loadLoop]
      split
      · rfl
      · exact loadLoop_countStage fromiso limit ls (i + 1)
          { st with skipped := st.skipped + 1, logs := st.logs ++ [i] }
    | parsed v =>
      simp only [loadLoop]
      split
      · rfl
      · split
        · exact loadLoop_countStage fromiso limit ls (i + 1)
            { st with skipped := st.skipped + 1, logs := st.logs ++ [i] }
        · split
          · have ih := loadLoop_countStage fromiso limit ls (i + 1)
              { written := st.written + 1, skipped := st.skipped, buf := [],
                logs := st.logs,
                trace := st.trace ++ [.stage i, .incr] ++ [.flushB (st.buf ++ [i])] }
            simp only [countStage_append] at ih ⊢
            have hc1 : countStage [LAction.stage i, LAction.incr] = 1 := rfl
            have hc2 : countStage [LAction.flushB (st.buf ++ [i])] = 0 := rfl
            omega
          · have ih := loadLoop_countStage fromiso limit ls (i + 1)
              { written := st.written + 1, skipped := st.skipped, buf := st.buf ++ [i],
                logs := st.logs, trace := st.trace ++ [.stage i, .incr] }
            simp only [countStage_append] at ih ⊢
            have hc1 : countStage [LAction.stage i, LAction.incr] = 1 := rfl
            omega

/-- C7 (amended): `written` is incremented at staging time, immediately
after `batch.mutate`, not after a flush; however the summary line is printed
only after the unconditional final `batch.flush()`, so the trace of every
run ends with a flush followed by the report of the final counters, and the
reported `written` equals the number of staged events. -/
theorem C7_written_at_stage_time (fromiso : String → Option PyDatetime)
    (lines : List LLine) (limit : Option ℕ) :
    ∃ body staged,
      (load_jsonl fromiso lines limit).trace =
        body ++ [LAction.flushB staged,
                 LAction.report (load_jsonl fromiso lines limit).written
                   (load_jsonl fromiso lines limit).skipped] ∧
      (load_jsonl fromiso lines limit).written =
        countStage (load_jsonl fromiso lines limit).trace := by
  refine ⟨(loadLoop fromiso limit lines 1 ⟨0, 0, [], [], []⟩).trace,
          (loadLoop fromiso limit lines 1 ⟨0, 0, [], [], []⟩).buf, rfl, ?_⟩
  have h := loadLoop_countStage fromiso limit lines 1 ⟨0, 0, [], [], []⟩
  show (loadLoop fromiso limit lines 1 ⟨0, 0, [], [], []⟩).written =
    countStage ((loadLoop fromiso limit lines 1 ⟨0, 0, [], [], []⟩).trace ++
      [LAction.flushB (loadLoop fromiso limit lines 1 ⟨0, 0, [], [], []⟩).buf,
       LAction.report (loadLoop fromiso limit lines 1 ⟨0, 0, [], [], []⟩).written
         (loadLoop fromiso limit lines 1 ⟨0, 0, [], [], []⟩).skipped])
  rw [countStage_append]
  have h' : (loadLoop fromiso limit lines 1 ⟨0, 0, [], [], []⟩).written =
      countStage (loadLoop fromiso limit lines 1 ⟨0, 0, [], [], []⟩).trace := by
    simpa [countStage] using h
  have hc : ∀ bufv wv sv, countStage [LAction.flushB bufv, LAction.report wv sv] = 0 :=
    fun _ _ _ => rfl
  rw [hc]
  omega

/-- C7 counterexample: on a one-line input the trace is
`[stage 1, incr, flush [1], report 1 0]` — the increment of `written`
precedes every flush, so the claim that `written` is incremented only after
the flush confirming the event has succeeded is false. -/
theorem C7_incr_before_flush_cex :
    (load_jsonl isoparse0 [.parsed rec0] none).trace =
      [.stage 1, .incr, .flushB [1], .report 1 0] ∧
    ¬ incrOnlyAfterFlush [.stage 1, .incr, .flushB [1], .report 1 0] :=
  ⟨rfl, by decide⟩

/-! ### C9: the staged mutation set (corrected) -/

theorem mem_if_singleton {c : Bool} {cell z : Cell} :
    (z ∈ if c = true then ([] : List Cell) else [cell]) ↔ c = false ∧ z = cell := by
  cases c <;> simp

/-- C9 (amended): every staged record writes `m:sensor_id` and
`m:event_timestamp`; `v:hr`, `v:temp` and `d:battery` are written iff the
corresponding field reads non-null, each carrying `str(value)` bytes; but
the `v:spo2` cell is governed by `rec.get("spO2", rec.get("spo2"))` — the
lowercase `spo2` is consulted only when the `spO2` key is absent, so a
present-but-null `spO2` suppresses the cell even when `spo2` is non-null. -/
theorem C9_mutation_set_amended (fs : List (String × JVal)) (sv tv : JVal) :
    (("m", "sensor_id", b sv) ∈ cellsOf fs sv tv ∧
      ("m", "event_timestamp", b tv) ∈ cellsOf fs sv tv) ∧
    (∀ x, ("v", "hr", x) ∈ cellsOf fs sv tv ↔
        fieldGet fs "heart_rate" ≠ .jnull ∧ x = b (fieldGet fs "heart_rate")) ∧
    (∀ x, ("v", "temp", x) ∈ cellsOf fs sv tv ↔
        fieldGet fs "body_temperature" ≠ .jnull ∧
          x = b (fieldGet fs "body_temperature")) ∧
    (∀ x, ("v", "spo2", x) ∈ cellsOf fs sv tv ↔
        spo2Eff fs ≠ .jnull ∧ x = b (spo2Eff fs)) ∧
    (∀ x, ("d", "battery", x) ∈ cellsOf fs sv tv ↔
        fieldGet fs "battery_level" ≠ .jnull ∧
          x = b (fieldGet fs "battery_level")) := by
  refine ⟨⟨by simp [cellsOf], by simp [cellsOf]⟩, ?_, ?_, ?_, ?_⟩ <;> intro x <;>
    simp only [cellsOf, List.mem_append, mem_if_singleton, List.mem_cons,
      List.mem_singleton, List.not_mem_nil, Prod.mk.injEq, isNull_eq_false_iff] <;>
    simp

/-- Witness for C9 over the concrete fields `fs5` (no battery, lowercase
`spo2` only, hence an effective spo2 of `98`). -/
theorem C9_mutation_set_amended_witness :
    ("m", "sensor_id", b (.jstr "s1")) ∈ cellsOf fs5 (.jstr "s1") (.jstr "t") ∧
      (("v", "spo2", b (.jint 98)) ∈ cellsOf fs5 (.jstr "s1") (.jstr "t") ↔
        spo2Eff fs5 ≠ .jnull ∧ b (.jint 98) = b (spo2Eff fs5)) :=
  ⟨(C9_mutation_set_amended fs5 (.jstr "s1") (.jstr "t")).1.1,
   (C9_mutation_set_amended fs5 (.jstr "s1") (.jstr "t")).2.2.2.1 (b (.jint 98))⟩

/-- C9 counterexample: with `spO2 = null` and `spo2 = 98` both present, the
claim predicts a `v:spo2` cell (the field is present and non-null under the
`spo2` spelling), but the staged mutation set contains no `v:spo2` cell at
all. -/
theorem C9_spo2_shadowed_cex :
    fs9.lookup "spo2" = some (.jint 98) ∧
      ((cellsOf fs9 (.jstr "s") (.jstr "1970-01-01T00:00:00Z")).all
        fun c => !(c.1 == "v" && c.2.1 == "spo2")) = true :=
  ⟨rfl, rfl⟩

/-! ### C10: fixed key width and the missing lower timestamp bound
(corrected) -/

theorem make_row_key_length {m : ℤ} (h0 : m ≤ MAX_TS_MICROS)
    (h1 : MAX_TS_MICROS - m < 10 ^ 19) (s : String) :
    (make_row_key s m).length = (utf8 s).length + 20 := by
  have hr0 : (0 : ℤ) ≤ MAX_TS_MICROS - m := by omega
  unfold make_row_key
  rw [List.append_assoc]
  simp [fmt019_length_of_range hr0 h1]

theorem emitted_key_length {env : Env} {now : ℤ} {record : JVal}
    {ev : NormalizedEvent} (h : processRecord env now record = .emit ev)
    (s : String) :
    (make_row_key s ev.event_micros).length = (utf8 s).length + 20 := by
  obtain ⟨fs, _, _, hlb, hub, _⟩ := processRecord_emit_inv h
  refine make_row_key_length ?_ ?_ s
  · simp only [MAX_TS_MICROS]
    simp only [maxMicros] at hub
    omega
  · simp only [MAX_TS_MICROS]
    simp only [minMicros] at hlb
    omega

/-- C10 (amended): for `event_micros` in `[0, 2^63 - 1]` the row key is
exactly `len(utf8(sensor_id)) + 20` bytes; the validator imposes no lower
timestamp bound, so a pre-epoch event is admitted, its `event_micros` is
negative and its reverse value exceeds `2^63 - 1` — yet the suffix never
grows to 20 digits: every Python-representable instant lies within years
1..9999, so the reverse value stays below `10^19` and every emitted event's
key still has the fixed `len + 20` width. -/
theorem C10_key_width_amended :
    (∀ (s : String) (m : ℤ), 0 ≤ m → m ≤ 2 ^ 63 - 1 →
        (make_row_key s m).length = (utf8 s).length + 20) ∧
    (processRecord env0 0 recPre = .emit evPre ∧ evPre.event_micros < 0 ∧
      MAX_TS_MICROS < MAX_TS_MICROS - evPre.event_micros ∧
      (make_row_key "s1" evPre.event_micros).length = (utf8 "s1").length + 20) ∧
    (∀ (env : Env) (now : ℤ) (record : JVal) (ev : NormalizedEvent) (s : String),
        processRecord env now record = .emit ev →
        (make_row_key s ev.event_micros).length = (utf8 s).length + 20) := by
  refine ⟨?_, ⟨rfl, by norm_num [evPre], by norm_num [evPre, MAX_TS_MICROS], ?_⟩, ?_⟩
  · intro s m h0 h1
    refine make_row_key_length ?_ ?_ s <;> simp only [MAX_TS_MICROS] <;> omega
  · refine make_row_key_length ?_ ?_ "s1" <;>
      norm_num [evPre, MAX_TS_MICROS]
  · intro env now record ev s h
    exact emitted_key_length h s

/-- Witness for C10 at `m = 0`, and at the emitted pre-epoch event. -/
theorem C10_key_width_amended_witness :
    (make_row_key "s1" 0).length = (utf8 "s1").length + 20 ∧
      (make_row_key "x" evPre.event_micros).length = (utf8 "x").length + 20 :=
  ⟨C10_key_width_amended.1 "s1" 0 le_rfl (by norm_num),
   C10_key_width_amended.2.2 env0 0 recPre evPre "x" rfl⟩

/-- C10 counterexample: the claim asserts some validator-admissible input
produces a reverse value with a 20-digit suffix (breaking the fixed width);
in fact no emitted event can — every emitted instant is within Python's
datetime range, so every key has the fixed `len + 20` width. -/
theorem C10_no_width_overflow_cex :
    ¬ ∃ (env : Env) (now : ℤ) (record : JVal) (ev : NormalizedEvent) (s : String),
        processRecord env now record = .emit ev ∧
          (make_row_key s ev.event_micros).length ≠ (utf8 s).length + 20 := by
  rintro ⟨env, now, record, ev, s, hemit, hne⟩
  exact hne (emitted_key_length hemit s)
